import Mathlib

/-!
Shallow embedding of `src/ec2-port-checker.py`, an AWS Config rule that
inspects EC2 security groups and instances for forbidden open ports.

The external AWS directory (boto3 calls) is modelled as an explicit
`Ec2World` value: a list of instances with their attached security-group
records, and a lookup from security-group id to its ingress permission
list.  Fallible Python operations (`int(...)` raising `ValueError`,
`set(...)` over unhashable dicts raising `TypeError`) are modelled in the
`Except PyError` monad.
-/

deriving instance DecidableEq for Except

namespace PortChecker

/-- Python runtime errors that the translated code can raise. -/
inductive PyError
  | typeError
  | valueError
deriving DecidableEq

/-- One entry of a boto3 `security_groups` list: a dict with at least
`GroupId` and `GroupName` keys. -/
structure SecGroupRecord where
  groupId : String
  groupName : String
deriving DecidableEq

/-- One entry of an `IpRanges` list: a dict with a `CidrIp` string. -/
structure IpRange where
  cidrIp : String
deriving DecidableEq

/-- One ingress permission of a security group: `FromPort`, `ToPort`
(inclusive), and a list of CIDR source ranges. -/
structure IpPermission where
  fromPort : Int
  toPort : Int
  ipRanges : List IpRange
deriving DecidableEq

/-- A value that the Python code stores in a "groups" collection.  The
security-group branch stores plain group-id strings; the instance branch
stores the raw boto3 group records (dicts). -/
inductive GroupRef
  | gid (s : String)
  | raw (r : SecGroupRecord)
deriving DecidableEq

/-- The state of the EC2 account visible through the boto3 calls:
instances (id paired with the ordered list of attached group records) and
the ingress permissions of each security group (`none` models an absent
permission list). -/
structure Ec2World where
  instances : List (String × List SecGroupRecord)
  groupPerms : String → Option (List IpPermission)

/-- The fields of the triggering configuration item that the code reads:
`resourceType`, `configuration.groupId`, `configuration.instanceId`, and
`configurationItemCaptureTime` (flattened here). -/
structure ConfigItem where
  resourceType : String
  groupId : String
  instanceId : String
  captureTime : String

/-- The value returned by `evaluate_compliance`: Python `False` for an
unsupported resource type, otherwise the `violationInstances` dict
(instance id mapped to its list of violating groups, in insertion
order). -/
inductive EvalResult
  | notApplicable
  | table (m : List (String × List GroupRef))
deriving DecidableEq

/-- A per-instance row appended to `outputEvaluation`. -/
structure ComplianceRecord where
  resourceType : String
  resourceId : String
  complianceType : String
  annot : String
  orderingTimestamp : String
deriving DecidableEq

/-- One element of `outputEvaluation`: either a per-instance compliance
record, or the not-applicable dict (which in the source carries only a
compliance type and an annotation string). -/
inductive OutputRecord
  | perInstance (r : ComplianceRecord)
  | na (complianceType : String) (annot : String)
deriving DecidableEq

/-! ### Python primitives -/

/-- Python `needle in haystack` on strings: substring containment. -/
def pyInStr (needle hay : String) : Bool :=
  (List.range (hay.length + 1)).any
    (fun i => needle.toList.isPrefixOf (hay.toList.drop i))

/-- Python `range(a, b)`: the integers `a, a+1, ..., b-1` (empty when
`a ≥ b`). -/
def pyRange (a b : Int) : List Int :=
  (List.range (b - a).toNat).map (fun (i : Nat) => a + (i : Int))

/-- Parse a nonempty string of decimal digits. -/
def digitsToNat? (cs : List Char) : Option Nat :=
  if cs.isEmpty then none
  else
    cs.foldl
      (fun acc c =>
        match acc with
        | none => none
        | some n => if c.isDigit then some (n * 10 + (c.toNat - '0'.toNat)) else none)
      (some 0)

/-- Python `int(s)` (base 10): optional sign followed by digits; raises
`ValueError` otherwise. -/
def pyInt (s : String) : Except PyError Int :=
  match s.toList with
  | '-' :: rest =>
      match digitsToNat? rest with
      | some n => Except.ok (-(n : Int))
      | none => Except.error PyError.valueError
  | '+' :: rest =>
      match digitsToNat? rest with
      | some n => Except.ok (n : Int)
      | none => Except.error PyError.valueError
  | cs =>
      match digitsToNat? cs with
      | some n => Except.ok (n : Int)
      | none => Except.error PyError.valueError

/-- Python `s.split(sep)` on the underlying character list: splits at
every separator occurrence and keeps empty pieces. -/
def pySplit (sep : Char) : List Char → List (List Char)
  | [] => [[]]
  | c :: rest =>
      let r := pySplit sep rest
      if c = sep then [] :: r
      else (c :: r.headD []) :: r.tail

/-- Python `s.split(sep)` returning strings. -/
def pySplitStr (s : String) (sep : Char) : List String :=
  (pySplit sep s.toList).map String.mk

/-- Python `set.add` on a set modelled as a duplicate-free list kept in
insertion order. -/
def setAdd (s : List GroupRef) (x : GroupRef) : List GroupRef :=
  if x ∈ s then s else s ++ [x]

/-- Python dict assignment `m[k] = v` on a dict modelled as an
association list in key-insertion order. -/
def dictInsert (m : List (String × α)) (k : String) (v : α) : List (String × α) :=
  if m.any (fun p => p.1 = k) then
    m.map (fun p => if p.1 = k then (k, v) else p)
  else m ++ [(k, v)]

/-- Dict lookup `m[k]` (as an `Option`). -/
def dictFind (m : List (String × α)) (k : String) : Option α :=
  (m.find? (fun p => p.1 = k)).map Prod.snd

/-- Python `set(groups)` over a list of boto3 group records (dicts).
Dicts are unhashable, so inserting the first element raises `TypeError`;
only the empty list yields a (empty) set. -/
def pySetOfGroups (l : List SecGroupRecord) : Except PyError (List GroupRef) :=
  match l with
  | [] => Except.ok []
  | _ :: _ => Except.error PyError.typeError

/-! ### boto3 lookups (`instancesForSecurityGroupId`, `secGroupsForInstanceId`) -/

/-- `ec2.describe_instances` filtered on `instance.group-id`: all
instances one of whose attached groups has the given id (the code's
nested reservation/instance loops flatten to this list). -/
def instancesForSecurityGroupId (w : Ec2World) (secGroupId : String) :
    List (String × List SecGroupRecord) :=
  w.instances.filter (fun p => p.2.any (fun r => r.groupId = secGroupId))

/-- `ec2.Instance(instanceId).security_groups`: the attached group
records of the named instance. -/
def secGroupsForInstanceId (w : Ec2World) (instanceId : String) :
    List SecGroupRecord :=
  ((w.instances.find? (fun p => p.1 = instanceId)).map Prod.snd).getD []

/-! ### Relationship resolver -/

/-- The group-id refs an instance contributes to the scope. -/
def gidsOf (w : Ec2World) (instanceId : String) : List GroupRef :=
  (secGroupsForInstanceId w instanceId).map (fun r => GroupRef.gid r.groupId)

/-- The loop body of `determineEvaluationScopeFromTriggerSecGroup`:
accumulates the `instancesToEvaluate` dict and the `secGroupsToCheck`
set over the affected instances. -/
def scopeLoop (w : Ec2World) :
    List (String × List SecGroupRecord) →
    List (String × List GroupRef) → List GroupRef →
    List (String × List GroupRef) × List GroupRef
  | [], d, s => (d, s)
  | inst :: rest, d, s =>
      scopeLoop w rest
        (dictInsert d inst.1 (gidsOf w inst.1))
        ((gidsOf w inst.1).foldl setAdd s)

/-- `determineEvaluationScopeFromTriggerSecGroup`: for each instance
attached to the trigger group, record its full current group-id list in
`instancesToEvaluate` (first component) and add every such id to the
`secGroupsToCheck` set (second component). -/
def determineEvaluationScopeFromTriggerSecGroup (w : Ec2World)
    (triggerSecGroup : String) :
    List (String × List GroupRef) × List GroupRef :=
  scopeLoop w (instancesForSecurityGroupId w triggerSecGroup) [] []

/-! ### Port-range utilities -/

/-- Inner loop of `find_exposed_ports` over one permission's `IpRanges`:
each range whose `CidrIp` contains `"0.0.0.0/0"` as a substring
contributes `range(FromPort, ToPort+1)`. -/
def exposedOfRanges (fromPort toPort : Int) : List IpRange → List Int
  | [] => []
  | ip :: rest =>
      (if pyInStr "0.0.0.0/0" ip.cidrIp then pyRange fromPort (toPort + 1) else [])
        ++ exposedOfRanges fromPort toPort rest

/-- Outer loop of `find_exposed_ports` over the permission list. -/
def exposedOfPerms : List IpPermission → List Int
  | [] => []
  | perm :: rest =>
      exposedOfRanges perm.fromPort perm.toPort perm.ipRanges ++ exposedOfPerms rest

/-- `find_exposed_ports(ip_permissions)`: the `or []` makes an absent
permission list behave as the empty list. -/
def find_exposed_ports (ip_permissions : Option (List IpPermission)) : List Int :=
  exposedOfPerms (ip_permissions.getD [])

/-- `expand_range(ports)`: a spec containing `"-"` is split on `"-"` and
expanded as `range(int(lo), int(hi)+1)`; otherwise it is `[int(ports)]`.
`int` failures propagate as `ValueError`. -/
def expand_range (ports : String) : Except PyError (List Int) :=
  if pyInStr "-" ports then do
    let lo ← pyInt ((pySplitStr ports '-').getD 0 "")
    let hi ← pyInt ((pySplitStr ports '-').getD 1 "")
    Except.ok (pyRange lo (hi + 1))
  else do
    let n ← pyInt ports
    Except.ok [n]

/-- `find_violation(exposed_ports, forbidden_ports)`: iterate the
forbidden specs in order; expand each and return `True` on the first
expanded port that is in the exposed list. -/
def find_violation (exposed_ports : List Int) :
    List (String × String) → Except PyError Bool
  | [] => Except.ok false
  | (_, spec) :: rest => do
      let ports ← expand_range spec
      if ports.any (fun port => decide (port ∈ exposed_ports)) then
        Except.ok true
      else
        find_violation exposed_ports rest

/-! ### Violation evaluator -/

/-- `getViolationGroups(secGroupSet, forbiddenPorts)`: for each group in
the set (in iteration order), fetch its permissions, compute the exposed
ports, and keep the group when `find_violation` holds.  A raw group
record (dict) in the set would make the boto3 `SecurityGroup` lookup
fail, modelled as `TypeError`. -/
def getViolationGroups (w : Ec2World) (forbiddenPorts : List (String × String)) :
    List GroupRef → Except PyError (List GroupRef)
  | [] => Except.ok []
  | ref :: rest => do
      let gid ←
        match ref with
        | GroupRef.gid s => Except.ok s
        | GroupRef.raw _ => Except.error PyError.typeError
      let exposed := find_exposed_ports (w.groupPerms gid)
      let viol ← find_violation exposed forbiddenPorts
      let others ← getViolationGroups w forbiddenPorts rest
      if viol then Except.ok (ref :: others) else Except.ok others

/-- The tail of `evaluate_compliance` shared by both supported branches:
compute the violating groups of the scope's `secGroupsToCheck`, then map
them back onto each instance (keeping, per instance, the violating
groups among its attached groups, in violation-list order). -/
def evalScope (w : Ec2World)
    (scope : List (String × List GroupRef) × List GroupRef)
    (ruleParams : List (String × String)) : Except PyError EvalResult := do
  let violationGroups ← getViolationGroups w ruleParams scope.2
  Except.ok (EvalResult.table
    (scope.1.map (fun p => (p.1, violationGroups.filter (fun g => decide (g ∈ p.2))))))

/-- `evaluate_compliance(configuration_item, rule_parameters)`.  The
instance branch stores the raw group records: `set(groups)` raises
`TypeError` unless the instance has no groups, and `secGroupsToCheck`
holds the records themselves. -/
def evaluate_compliance (w : Ec2World) (ci : ConfigItem)
    (ruleParams : List (String × String)) : Except PyError EvalResult :=
  if ci.resourceType = "AWS::EC2::SecurityGroup" then
    evalScope w (determineEvaluationScopeFromTriggerSecGroup w ci.groupId) ruleParams
  else if ci.resourceType = "AWS::EC2::Instance" then do
    let groups := secGroupsForInstanceId w ci.instanceId
    let groupSet ← pySetOfGroups groups
    evalScope w ([(ci.instanceId, groupSet)], groups.map GroupRef.raw) ruleParams
  else
    Except.ok EvalResult.notApplicable

/-! ### Evaluation reporter (`lambda_handler` output construction) -/

/-- The string a group ref contributes to the joined annotation (only
meaningful for `gid` refs; `rec` refs make the join raise). -/
def gidName : GroupRef → String
  | GroupRef.gid s => s
  | GroupRef.raw r => r.groupId

/-- Whether a group ref is a plain group-id string. -/
def isGid : GroupRef → Bool
  | GroupRef.gid _ => true
  | GroupRef.raw _ => false

/-- The strings joined by `','.join(...)`: a non-string dict element
raises `TypeError`. -/
def joinRefsStrs : List GroupRef → Except PyError (List String)
  | [] => Except.ok []
  | r :: rest => do
      let s ←
        match r with
        | GroupRef.gid s => Except.ok s
        | GroupRef.raw _ => Except.error PyError.typeError
      let ss ← joinRefsStrs rest
      Except.ok (s :: ss)

/-- Python `','.join(...)` over the violating-group list. -/
def joinRefs (l : List GroupRef) : Except PyError String := do
  let ss ← joinRefsStrs l
  Except.ok (String.intercalate "," ss)

/-- The NOT_APPLICABLE dict appended when `evaluate_compliance` is falsy
(note its keys differ from the per-instance records in the source). -/
def naRecord (resourceType : String) : OutputRecord :=
  OutputRecord.na "NOT_APPLICABLE"
    ("The rule doesn't apply to resources of type " ++ resourceType ++ ".")

/-- The per-instance record built for one entry of the violation dict. -/
def mkEval (ci : ConfigItem) (p : String × List GroupRef) :
    Except PyError OutputRecord :=
  if p.2.length ≠ 0 then do
    let joined ← joinRefs p.2
    Except.ok (OutputRecord.perInstance
      { resourceType := "AWS::EC2::Instance"
        resourceId := p.1
        complianceType := "NON_COMPLIANT"
        annot := "Instance has non compliant groups " ++ joined
        orderingTimestamp := ci.captureTime })
  else
    Except.ok (OutputRecord.perInstance
      { resourceType := "AWS::EC2::Instance"
        resourceId := p.1
        complianceType := "COMPLIANT"
        annot := "This resource is compliant with the rule."
        orderingTimestamp := ci.captureTime })

/-- The reporter loop over the (truthy) violation dict: one record is
appended to `outputEvaluation` per dict entry, in iteration order. -/
def buildOutput (ci : ConfigItem) : List (String × List GroupRef) →
    Except PyError (List OutputRecord)
  | [] => Except.ok []
  | p :: rest => do
      let r ← mkEval ci p
      let rs ← buildOutput ci rest
      Except.ok (r :: rs)

/-- `lambda_handler`, restricted to the computation of
`outputEvaluation` (event parsing, logging and `put_evaluations` are I/O
glue).  `if evaluations:` is Python truthiness: both `False` and the
empty dict fall to the NOT_APPLICABLE branch. -/
def lambda_handler (w : Ec2World) (ci : ConfigItem)
    (ruleParams : List (String × String)) : Except PyError (List OutputRecord) := do
  let evaluations ← evaluate_compliance w ci ruleParams
  match evaluations with
  | EvalResult.notApplicable => Except.ok [naRecord ci.resourceType]
  | EvalResult.table m =>
      if m.isEmpty then Except.ok [naRecord ci.resourceType]
      else buildOutput ci m

/-! ### Specification-side helper functions (used only in theorem
statements, to phrase what the code computes) -/

/-- Whether one forbidden spec matches the exposed-port list: its
expansion succeeds and shares a port with `exposed`. -/
def specViolates (exposed : List Int) (spec : String) : Bool :=
  match expand_range spec with
  | Except.ok ports => ports.any (fun port => decide (port ∈ exposed))
  | Except.error _ => false

/-- The record the reporter emits for one violation-dict entry whose
group refs are all plain id strings (the total core of `mkEval`). -/
def pureRecord (ci : ConfigItem) (p : String × List GroupRef) : OutputRecord :=
  if p.2.length ≠ 0 then
    OutputRecord.perInstance
      { resourceType := "AWS::EC2::Instance"
        resourceId := p.1
        complianceType := "NON_COMPLIANT"
        annot := "Instance has non compliant groups "
          ++ String.intercalate "," (p.2.map gidName)
        orderingTimestamp := ci.captureTime }
  else
    OutputRecord.perInstance
      { resourceType := "AWS::EC2::Instance"
        resourceId := p.1
        complianceType := "COMPLIANT"
        annot := "This resource is compliant with the rule."
        orderingTimestamp := ci.captureTime }

/-- The instance id an output record reports on (`none` for the
not-applicable record). -/
def recId : OutputRecord → Option String
  | OutputRecord.perInstance r => some r.resourceId
  | OutputRecord.na _ _ => none

/-! ### Concrete fixtures for witnesses and counterexamples -/

/-- An account with no instances. -/
def wEmpty : Ec2World :=
  { instances := [], groupPerms := fun _ => none }

/-- An account with one instance attached to one group. -/
def wOne : Ec2World :=
  { instances := [("i-1", [{ groupId := "sg-1", groupName := "web" }])]
    groupPerms := fun g =>
      if g = "sg-1" then
        some [{ fromPort := 1, toPort := 100, ipRanges := [{ cidrIp := "0.0.0.0/0" }] }]
      else none }

/-- An account with one instance attached to one group and one instance
with no groups. -/
def wTwo : Ec2World :=
  { instances := [("i-1", [{ groupId := "sg-1", groupName := "web" }]), ("i-2", [])]
    groupPerms := fun _ => none }

/-- A security-group-triggered configuration item. -/
def ciSecGroup : ConfigItem :=
  { resourceType := "AWS::EC2::SecurityGroup", groupId := "sg-9"
    instanceId := "", captureTime := "2016-06-13T00:00:00.000Z" }

/-- An instance-triggered configuration item for `i-1`. -/
def ciInst1 : ConfigItem :=
  { resourceType := "AWS::EC2::Instance", groupId := ""
    instanceId := "i-1", captureTime := "2016-06-13T00:00:00.000Z" }

/-- An instance-triggered configuration item for `i-2`. -/
def ciInst2 : ConfigItem :=
  { resourceType := "AWS::EC2::Instance", groupId := ""
    instanceId := "i-2", captureTime := "2016-06-13T00:00:00.000Z" }

/-- A configuration item of an unsupported resource type. -/
def ciVpc : ConfigItem :=
  { resourceType := "AWS::EC2::Vpc", groupId := ""
    instanceId := "", captureTime := "2016-06-13T00:00:00.000Z" }

/-- A violation dict used to exercise the reporter. -/
def mFix : List (String × List GroupRef) :=
  [("i-1", [GroupRef.gid "sg-1"]), ("i-2", [])]

/-! ## Lemmas about the port-range utilities -/

theorem pyRange_mem {a b p : Int} : p ∈ pyRange a b ↔ a ≤ p ∧ p < b := by
  constructor
  · intro h
    obtain ⟨i, hi, hEq⟩ := List.mem_map.mp h
    have hlt : i < (b - a).toNat := List.mem_range.mp hi
    omega
  · rintro ⟨h1, h2⟩
    exact List.mem_map.mpr
      ⟨(p - a).toNat, List.mem_range.mpr (by omega), by omega⟩

theorem pyRange_eq_nil {a b : Int} (h : b ≤ a) : pyRange a b = [] := by
  unfold pyRange
  have hz : (b - a).toNat = 0 := by omega
  rw [hz]
  rfl

theorem mem_exposedOfRanges {f t : Int} {rs : List IpRange} {p : Int} :
    p ∈ exposedOfRanges f t rs ↔
      (∃ ip ∈ rs, pyInStr "0.0.0.0/0" ip.cidrIp = true) ∧ f ≤ p ∧ p ≤ t := by
  induction rs with
  | nil => simp [exposedOfRanges]
  | cons ip rest ih =>
      have hif : p ∈ (if pyInStr "0.0.0.0/0" ip.cidrIp then pyRange f (t + 1) else []) ↔
          (pyInStr "0.0.0.0/0" ip.cidrIp = true ∧ (f ≤ p ∧ p ≤ t)) := by
        split
        · rename_i hc
          rw [pyRange_mem]
          constructor
          · rintro ⟨h1, h2⟩
            exact ⟨hc, h1, by omega⟩
          · rintro ⟨_, h1, h2⟩
            exact ⟨h1, by omega⟩
        · rename_i hc
          constructor
          · intro h
            exact absurd h (List.not_mem_nil p)
          · rintro ⟨hc2, _⟩
            exact absurd hc2 hc
      simp only [exposedOfRanges, List.mem_append, hif, ih, List.mem_cons]
      constructor
      · rintro (⟨hc, h1⟩ | ⟨⟨ip', hip', hc'⟩, h1⟩)
        · exact ⟨⟨ip, Or.inl rfl, hc⟩, h1⟩
        · exact ⟨⟨ip', Or.inr hip', hc'⟩, h1⟩
      · rintro ⟨⟨ip', hip', hc'⟩, h1⟩
        rcases hip' with rfl | hip'
        · exact Or.inl ⟨hc', h1⟩
        · exact Or.inr ⟨⟨ip', hip', hc'⟩, h1⟩

theorem mem_exposedOfPerms {perms : List IpPermission} {p : Int} :
    p ∈ exposedOfPerms perms ↔
      ∃ perm ∈ perms,
        (∃ ip ∈ perm.ipRanges, pyInStr "0.0.0.0/0" ip.cidrIp = true) ∧
        perm.fromPort ≤ p ∧ p ≤ perm.toPort := by
  induction perms with
  | nil => simp [exposedOfPerms]
  | cons perm rest ih =>
      simp only [exposedOfPerms, List.mem_append, mem_exposedOfRanges, ih, List.mem_cons]
      constructor
      · rintro (h | ⟨perm', hmem, h⟩)
        · exact ⟨perm, Or.inl rfl, h⟩
        · exact ⟨perm', Or.inr hmem, h⟩
      · rintro ⟨perm', hmem, h⟩
        rcases hmem with rfl | hmem
        · exact Or.inl h
        · exact Or.inr ⟨perm', hmem, h⟩

/-! ## Claim C3 -/

/-- C3 (amended): `find_exposed_ports` returns exactly the union, over
the rules having at least one CIDR source range that *contains*
"0.0.0.0/0" as a substring (Python `in`, not string equality), of the
integers in `[FromPort, ToPort]` inclusive; a rule contributes ports iff
one of its CIDR ranges contains "0.0.0.0/0"; an absent or empty rule
list yields the empty set. -/
theorem C3_exposed_ports_substring :
    (∀ (rules : Option (List IpPermission)) (p : Int),
        p ∈ find_exposed_ports rules ↔
          ∃ perm ∈ rules.getD [],
            (∃ ip ∈ perm.ipRanges, pyInStr "0.0.0.0/0" ip.cidrIp = true) ∧
            perm.fromPort ≤ p ∧ p ≤ perm.toPort)
    ∧ find_exposed_ports none = [] ∧ find_exposed_ports (some []) = [] := by
  refine ⟨fun rules p => ?_, rfl, rfl⟩
  unfold find_exposed_ports
  exact mem_exposedOfPerms

/-- C3 counterexample: a rule whose only CIDR source is "10.0.0.0/0",
which is not equal to "0.0.0.0/0", still contributes its port range, so
"contributes iff a CIDR range *equals* 0.0.0.0/0" is false. -/
theorem C3_counterexample :
    find_exposed_ports
        (some [{ fromPort := 1, toPort := 1, ipRanges := [{ cidrIp := "10.0.0.0/0" }] }])
      = [1]
    ∧ ("10.0.0.0/0" : String) ≠ "0.0.0.0/0" := by
  constructor
  · decide
  · decide

/-! ## Claim C4 -/

theorem pyInt_error {s : String} {e : PyError} (h : pyInt s = Except.error e) :
    e = PyError.valueError := by
  unfold pyInt at h
  split at h <;> split at h <;> simp_all

/-- C4 (amended): for a port-spec string containing "-", `expand_range`
fails with a `ValueError` whenever either side is non-numeric (e.g.
"-1", whose left side is empty); but when both sides parse and the lower
bound exceeds the upper bound it returns the empty port list rather
than failing. -/
theorem C4_expand_range_behavior (s : String)
    (hdash : pyInStr "-" s = true) :
    (pyInt ((pySplitStr s '-').getD 0 "") = Except.error PyError.valueError ∨
      pyInt ((pySplitStr s '-').getD 1 "") = Except.error PyError.valueError →
        expand_range s = Except.error PyError.valueError) ∧
    (∀ lo hi : Int,
      pyInt ((pySplitStr s '-').getD 0 "") = Except.ok lo →
      pyInt ((pySplitStr s '-').getD 1 "") = Except.ok hi →
      hi < lo →
      expand_range s = Except.ok []) := by
  constructor
  · intro herr
    unfold expand_range
    rw [if_pos hdash]
    rcases herr with h0 | h1
    · rw [h0]
      rfl
    · cases hok : pyInt ((pySplitStr s '-').getD 0 "") with
      | error e =>
          have he := pyInt_error hok
          subst he
          rfl
      | ok lo =>
          show (do
            let hi ← pyInt ((pySplitStr s '-').getD 1 "")
            Except.ok (pyRange lo (hi + 1))) = Except.error PyError.valueError
          rw [h1]
          rfl
  · intro lo hi h0 h1 hlt
    unfold expand_range
    rw [if_pos hdash, h0]
    show (do
      let hi ← pyInt ((pySplitStr s '-').getD 1 "")
      Except.ok (pyRange lo (hi + 1))) = Except.ok []
    rw [h1]
    show Except.ok (pyRange lo (hi + 1)) = Except.ok []
    rw [pyRange_eq_nil (by omega)]

/-- C4 counterexample: the inverted range "5-3" does not fail; the code
returns the empty port list. -/
theorem C4_counterexample : expand_range "5-3" = Except.ok ([] : List Int) := by
  rfl

/-- Witness for C4 (amended): "-1" fails with `ValueError`; "9-2"
returns the empty port list. -/
theorem C4_witness :
    expand_range "-1" = Except.error PyError.valueError ∧
    expand_range "9-2" = Except.ok [] := by
  constructor
  · exact (C4_expand_range_behavior "-1" (by rfl)).1 (Or.inl (by rfl))
  · exact (C4_expand_range_behavior "9-2" (by rfl)).2 9 2 (by rfl) (by rfl) (by omega)

/-! ## Claim C6 -/

theorem find_violation_eq_any (exposed : List Int) :
    ∀ forbidden : List (String × String),
      (∀ q ∈ forbidden, ∃ ports, expand_range q.2 = Except.ok ports) →
      find_violation exposed forbidden =
        Except.ok (forbidden.any (fun q => specViolates exposed q.2)) := by
  intro forbidden
  induction forbidden with
  | nil => intro _; rfl
  | cons q rest ih =>
      intro h
      obtain ⟨ports, hports⟩ := h q (List.mem_cons_self q rest)
      have hrest := fun r hr => h r (List.mem_cons_of_mem q hr)
      obtain ⟨lab, spec⟩ := q
      show (do
        let ports ← expand_range spec
        if ports.any (fun port => decide (port ∈ exposed)) then Except.ok true
        else find_violation exposed rest) = _
      rw [hports]
      show (if ports.any (fun port => decide (port ∈ exposed)) then Except.ok true
        else find_violation exposed rest) = _
      have hspec : specViolates exposed spec =
          ports.any (fun port => decide (port ∈ exposed)) := by
        unfold specViolates
        rw [hports]
      cases hv : ports.any (fun port => decide (port ∈ exposed)) with
      | true =>
          rw [if_pos rfl]
          simp only [List.any_cons, hspec, hv, Bool.true_or]
      | false =>
          rw [if_neg Bool.false_ne_true]
          rw [ih hrest]
          simp only [List.any_cons, hspec, hv, Bool.false_or]

/-- C6 (as stated): when every forbidden spec expands successfully,
`find_violation` returns true iff some expanded forbidden spec shares a
port with the exposed set, and permuting the forbidden-spec iteration
order does not change the result. -/
theorem C6_find_violation_iff (exposed : List Int) (f1 f2 : List (String × String))
    (h : ∀ q ∈ f1, ∃ ports, expand_range q.2 = Except.ok ports)
    (hperm : f1.Perm f2) :
    (find_violation exposed f1 = Except.ok true ↔
      ∃ q ∈ f1, ∃ ports, expand_range q.2 = Except.ok ports ∧
        ∃ x, x ∈ ports ∧ x ∈ exposed) ∧
    find_violation exposed f1 = find_violation exposed f2 := by
  have h2 : ∀ q ∈ f2, ∃ ports, expand_range q.2 = Except.ok ports :=
    fun q hq => h q (hperm.mem_iff.mpr hq)
  constructor
  · rw [find_violation_eq_any exposed f1 h]
    constructor
    · intro hok
      have hany : f1.any (fun q => specViolates exposed q.2) = true := by
        injection hok
      obtain ⟨q, hq, hspec⟩ := List.any_eq_true.mp hany
      obtain ⟨ports, hports⟩ := h q hq
      unfold specViolates at hspec
      rw [hports] at hspec
      obtain ⟨x, hx, hxe⟩ := List.any_eq_true.mp hspec
      exact ⟨q, hq, ports, hports, x, hx, of_decide_eq_true hxe⟩
    · rintro ⟨q, hq, ports, hports, x, hx, hxe⟩
      have hspec : specViolates exposed q.2 = true := by
        unfold specViolates
        rw [hports]
        exact List.any_eq_true.mpr ⟨x, hx, decide_eq_true hxe⟩
      rw [List.any_eq_true.mpr ⟨q, hq, hspec⟩]
  · rw [find_violation_eq_any exposed f1 h, find_violation_eq_any exposed f2 h2]
    have hg : f1.any (fun q => specViolates exposed q.2) =
        f2.any (fun q => specViolates exposed q.2) := by
      apply Bool.coe_iff_coe.mp
      rw [List.any_eq_true, List.any_eq_true]
      constructor
      · rintro ⟨q, hq, hgq⟩
        exact ⟨q, hperm.mem_iff.mp hq, hgq⟩
      · rintro ⟨q, hq, hgq⟩
        exact ⟨q, hperm.mem_iff.mpr hq, hgq⟩
    rw [hg]

/-- Witness for C6 at a concrete exposed set and two permuted
forbidden-spec lists. -/
theorem C6_witness :
    find_violation [80] [("a", "80"), ("b", "1-3")] = Except.ok true ∧
    find_violation [80] [("a", "80"), ("b", "1-3")] =
      find_violation [80] [("b", "1-3"), ("a", "80")] := by
  have h := C6_find_violation_iff [80] [("a", "80"), ("b", "1-3")]
    [("b", "1-3"), ("a", "80")]
    (by
      intro q hq
      rcases List.mem_cons.mp hq with h1 | h1
      · exact ⟨[80], by rw [h1]; rfl⟩
      · rcases List.mem_cons.mp h1 with h2 | h2
        · exact ⟨[1, 2, 3], by rw [h2]; rfl⟩
        · exact absurd h2 (List.not_mem_nil q))
    (List.Perm.swap ("b", "1-3") ("a", "80") [])
  refine ⟨h.1.mpr ⟨("a", "80"), List.mem_cons_self _ _, [80], rfl, 80, ?_, ?_⟩, h.2⟩
  · exact List.mem_singleton.mpr rfl
  · exact List.mem_singleton.mpr rfl

/-! ## Claim C5 -/

/-- C5: when the triggering resource type is neither the security-group
type nor the instance type, `evaluate_compliance` returns the
not-applicable marker (Python `False`) for every account state — the
violation evaluator is never consulted — and the handler output is
exactly one NOT_APPLICABLE record naming the resource type, with no
per-instance records. -/
theorem C5_unsupported_resource (w : Ec2World) (ci : ConfigItem)
    (params : List (String × String))
    (h1 : ci.resourceType ≠ "AWS::EC2::SecurityGroup")
    (h2 : ci.resourceType ≠ "AWS::EC2::Instance") :
    evaluate_compliance w ci params = Except.ok EvalResult.notApplicable ∧
    lambda_handler w ci params = Except.ok [naRecord ci.resourceType] := by
  have he : evaluate_compliance w ci params = Except.ok EvalResult.notApplicable := by
    unfold evaluate_compliance
    rw [if_neg h1, if_neg h2]
  refine ⟨he, ?_⟩
  unfold lambda_handler
  rw [he]
  rfl

/-- Witness for C5 at the unsupported type "AWS::EC2::Vpc". -/
theorem C5_witness :
    lambda_handler wEmpty ciVpc [] = Except.ok [naRecord "AWS::EC2::Vpc"] :=
  (C5_unsupported_resource wEmpty ciVpc [] (by decide) (by decide)).2

/-! ## Claim C8 -/

/-- C8: the evaluation is a pure function of the account snapshot, the
configuration item and the rule parameters, so two runs against equal
snapshots produce identical output records (same instances, statuses,
annotations and timestamps). -/
theorem C8_idempotent (w₁ w₂ : Ec2World) (ci : ConfigItem)
    (params : List (String × String)) (h : w₁ = w₂) :
    lambda_handler w₁ ci params = lambda_handler w₂ ci params := by
  rw [h]

/-- Witness for C8 at a concrete snapshot and trigger. -/
theorem C8_witness :
    lambda_handler wOne ciSecGroup [] = lambda_handler wOne ciSecGroup [] :=
  C8_idempotent wOne wOne ciSecGroup [] rfl

/-! ## Claim C9 -/

/-- C9: in the instance-triggered branch, an instance with at least one
attached security group makes `evaluate_compliance` fail with a
`TypeError` (Python `set()` over the unhashable raw group dicts), so no
compliance records are produced; only an instance with zero attached
groups completes, and it is then reported COMPLIANT. -/
theorem C9_instance_branch (w : Ec2World) (ci : ConfigItem)
    (params : List (String × String))
    (hrt : ci.resourceType = "AWS::EC2::Instance") :
    (secGroupsForInstanceId w ci.instanceId ≠ [] →
      evaluate_compliance w ci params = Except.error PyError.typeError) ∧
    (secGroupsForInstanceId w ci.instanceId = [] →
      lambda_handler w ci params = Except.ok
        [OutputRecord.perInstance
          { resourceType := "AWS::EC2::Instance"
            resourceId := ci.instanceId
            complianceType := "COMPLIANT"
            annot := "This resource is compliant with the rule."
            orderingTimestamp := ci.captureTime }]) := by
  constructor
  · intro hne
    unfold evaluate_compliance
    rw [hrt, if_neg (by decide), if_pos rfl]
    show (do
      let groupSet ← pySetOfGroups (secGroupsForInstanceId w ci.instanceId)
      evalScope w ([(ci.instanceId, groupSet)],
        (secGroupsForInstanceId w ci.instanceId).map GroupRef.raw) params) =
      Except.error PyError.typeError
    cases hg : secGroupsForInstanceId w ci.instanceId with
    | nil => exact absurd hg hne
    | cons a l => rfl
  · intro hnil
    have he : evaluate_compliance w ci params =
        Except.ok (EvalResult.table [(ci.instanceId, [])]) := by
      unfold evaluate_compliance
      rw [hrt, if_neg (by decide), if_pos rfl]
      show (do
        let groupSet ← pySetOfGroups (secGroupsForInstanceId w ci.instanceId)
        evalScope w ([(ci.instanceId, groupSet)],
          (secGroupsForInstanceId w ci.instanceId).map GroupRef.raw) params) = _
      rw [hnil]
      rfl
    unfold lambda_handler
    rw [he]
    rfl

/-- Witness for C9: in `wTwo`, instance `i-1` has one attached group
and the branch fails with `TypeError`; instance `i-2` has none and is
reported COMPLIANT. -/
theorem C9_witness :
    evaluate_compliance wTwo ciInst1 [] = Except.error PyError.typeError ∧
    lambda_handler wTwo ciInst2 [] = Except.ok
      [OutputRecord.perInstance
        { resourceType := "AWS::EC2::Instance"
          resourceId := "i-2"
          complianceType := "COMPLIANT"
          annot := "This resource is compliant with the rule."
          orderingTimestamp := "2016-06-13T00:00:00.000Z" }] := by
  constructor
  · exact (C9_instance_branch wTwo ciInst1 [] rfl).1 (by decide)
  · exact (C9_instance_branch wTwo ciInst2 [] rfl).2 (by decide)

/-! ## Claim C2 (the code crashes where the claim expects a scope of
group-identifier strings) -/

/-- C2: evaluating the instance branch at an instance with one attached
group: instead of producing a scope mapping the instance to its set of
group-id strings, the code fails with a `TypeError`. -/
theorem C2_instance_branch_type_error :
    evaluate_compliance wOne ciInst1 [] = Except.error PyError.typeError := by
  decide

/-! ## Claim C10 -/

/-- C10: a security-group trigger whose group has no attached instances
yields the empty violation dict, which is falsy in Python, so the
handler emits the single NOT_APPLICABLE record naming the resource type
instead of zero records. -/
theorem C10_empty_scope_na (w : Ec2World) (ci : ConfigItem)
    (params : List (String × String))
    (hrt : ci.resourceType = "AWS::EC2::SecurityGroup")
    (hempty : instancesForSecurityGroupId w ci.groupId = []) :
    evaluate_compliance w ci params = Except.ok (EvalResult.table []) ∧
    lambda_handler w ci params = Except.ok [naRecord ci.resourceType] := by
  have he : evaluate_compliance w ci params = Except.ok (EvalResult.table []) := by
    unfold evaluate_compliance
    rw [hrt, if_pos rfl]
    unfold determineEvaluationScopeFromTriggerSecGroup
    rw [hempty]
    rfl
  refine ⟨he, ?_⟩
  unfold lambda_handler
  rw [he]
  rfl

/-- Witness for C10: a security-group trigger in the empty account. -/
theorem C10_witness :
    lambda_handler wEmpty ciSecGroup [] =
      Except.ok [naRecord "AWS::EC2::SecurityGroup"] :=
  (C10_empty_scope_na wEmpty ciSecGroup [] rfl (by decide)).2

/-! ## Lemmas about the relationship resolver -/

theorem mem_setAdd {s : List GroupRef} {y x : GroupRef} :
    x ∈ setAdd s y ↔ x ∈ s ∨ x = y := by
  unfold setAdd
  split
  · rename_i hy
    constructor
    · exact Or.inl
    · rintro (hx | rfl)
      · exact hx
      · exact hy
  · simp [List.mem_append]

theorem length_setAdd (s : List GroupRef) (y : GroupRef) :
    (setAdd s y).length ≤ s.length + 1 := by
  unfold setAdd
  split
  · omega
  · simp

theorem mem_foldl_setAdd {x : GroupRef} :
    ∀ (l : List GroupRef) (s : List GroupRef),
      x ∈ l.foldl setAdd s ↔ x ∈ s ∨ x ∈ l := by
  intro l
  induction l with
  | nil => intro s; simp
  | cons a l ih =>
      intro s
      rw [List.foldl_cons, ih, mem_setAdd, List.mem_cons]
      tauto

theorem length_foldl_setAdd :
    ∀ (l : List GroupRef) (s : List GroupRef),
      (l.foldl setAdd s).length ≤ s.length + l.length := by
  intro l
  induction l with
  | nil => intro s; simp
  | cons a l ih =>
      intro s
      rw [List.foldl_cons]
      have h1 := ih (setAdd s a)
      have h2 := length_setAdd s a
      simp only [List.length_cons]
      omega

theorem scopeLoop_snd_mem (w : Ec2World) (x : GroupRef) :
    ∀ (l : List (String × List SecGroupRecord))
      (d : List (String × List GroupRef)) (s : List GroupRef),
      x ∈ (scopeLoop w l d s).2 ↔ x ∈ s ∨ ∃ p ∈ l, x ∈ gidsOf w p.1 := by
  intro l
  induction l with
  | nil => intro d s; simp [scopeLoop]
  | cons inst rest ih =>
      intro d s
      show x ∈ (scopeLoop w rest (dictInsert d inst.1 (gidsOf w inst.1))
        ((gidsOf w inst.1).foldl setAdd s)).2 ↔ _
      rw [ih, mem_foldl_setAdd]
      constructor
      · rintro ((hs | hg) | ⟨p, hp, hx⟩)
        · exact Or.inl hs
        · exact Or.inr ⟨inst, List.mem_cons_self _ _, hg⟩
        · exact Or.inr ⟨p, List.mem_cons_of_mem _ hp, hx⟩
      · rintro (hs | ⟨p, hp, hx⟩)
        · exact Or.inl (Or.inl hs)
        · rcases List.mem_cons.mp hp with rfl | hp2
          · exact Or.inl (Or.inr hx)
          · exact Or.inr ⟨p, hp2, hx⟩

theorem scopeLoop_snd_length (w : Ec2World) (M : Nat) :
    ∀ (l : List (String × List SecGroupRecord))
      (d : List (String × List GroupRef)) (s : List GroupRef),
      (∀ p ∈ l, (gidsOf w p.1).length ≤ M) →
      (scopeLoop w l d s).2.length ≤ s.length + l.length * M := by
  intro l
  induction l with
  | nil => intro d s _; simp [scopeLoop]
  | cons inst rest ih =>
      intro d s hM
      show (scopeLoop w rest (dictInsert d inst.1 (gidsOf w inst.1))
        ((gidsOf w inst.1).foldl setAdd s)).2.length ≤ _
      have h1 := ih (dictInsert d inst.1 (gidsOf w inst.1))
        ((gidsOf w inst.1).foldl setAdd s)
        (fun p hp => hM p (List.mem_cons_of_mem _ hp))
      have h2 := length_foldl_setAdd (gidsOf w inst.1) s
      have h3 := hM inst (List.mem_cons_self _ _)
      have h4 : (rest.length + 1) * M = rest.length * M + M := by ring
      simp only [List.length_cons]
      omega

theorem scopeLoop_fst_append (w : Ec2World) :
    ∀ (l : List (String × List SecGroupRecord))
      (d : List (String × List GroupRef)) (s : List GroupRef),
      (∀ p ∈ l, ∀ q ∈ d, q.1 ≠ p.1) →
      (l.map Prod.fst).Nodup →
      (scopeLoop w l d s).1 = d ++ l.map (fun p => (p.1, gidsOf w p.1)) := by
  intro l
  induction l with
  | nil => intro d s _ _; simp [scopeLoop]
  | cons inst rest ih =>
      intro d s hfresh hnodup
      rw [List.map_cons] at hnodup
      have hn := List.nodup_cons.mp hnodup
      show (scopeLoop w rest (dictInsert d inst.1 (gidsOf w inst.1))
        ((gidsOf w inst.1).foldl setAdd s)).1 = _
      have hins : dictInsert d inst.1 (gidsOf w inst.1) =
          d ++ [(inst.1, gidsOf w inst.1)] := by
        unfold dictInsert
        rw [if_neg]
        intro hc
        obtain ⟨q, hq, hq2⟩ := List.any_eq_true.mp hc
        exact hfresh inst (List.mem_cons_self _ _) q hq (of_decide_eq_true hq2)
      rw [hins]
      have hfresh2 : ∀ p ∈ rest, ∀ q ∈ d ++ [(inst.1, gidsOf w inst.1)], q.1 ≠ p.1 := by
        intro p hp q hq
        rcases List.mem_append.mp hq with hq1 | hq2
        · exact hfresh p (List.mem_cons_of_mem _ hp) q hq1
        · rcases List.mem_singleton.mp hq2 with rfl
          intro hc
          exact hn.1 (hc ▸ List.mem_map_of_mem Prod.fst hp)
      rw [ih (d ++ [(inst.1, gidsOf w inst.1)]) ((gidsOf w inst.1).foldl setAdd s)
        hfresh2 hn.2]
      simp [List.append_assoc]

theorem find?_key_self {β : Type} :
    ∀ (l : List (String × β)) (p : String × β),
      (l.map Prod.fst).Nodup → p ∈ l →
      l.find? (fun q => q.1 = p.1) = some p := by
  intro l
  induction l with
  | nil => intro p _ hp; exact absurd hp (List.not_mem_nil p)
  | cons a l ih =>
      intro p hnodup hp
      rw [List.map_cons] at hnodup
      have hn := List.nodup_cons.mp hnodup
      rcases List.mem_cons.mp hp with rfl | hp2
      · rw [List.find?_cons_of_pos _ (by simp)]
      · have hne : ¬(a.1 = p.1) := by
          intro hc
          exact hn.1 (hc ▸ List.mem_map_of_mem Prod.fst hp2)
        rw [List.find?_cons_of_neg _ (by simpa using hne)]
        exact ih p hn.2 hp2

theorem secGroupsForInstanceId_eq (w : Ec2World) (p : String × List SecGroupRecord)
    (hkeys : (w.instances.map Prod.fst).Nodup) (hp : p ∈ w.instances) :
    secGroupsForInstanceId w p.1 = p.2 := by
  unfold secGroupsForInstanceId
  rw [find?_key_self w.instances p hkeys hp]
  rfl

/-! ## Claim C1 -/

/-- C1 (amended): for a security-group trigger in an account whose
instance ids are unique, with N = the number of instances attached to
the trigger group and every such instance attached to at most M groups:
the scope maps each affected instance to its complete current group-id
list, the `secGroupsToCheck` set is exactly the union of those
per-instance lists, and its cardinality is at most N×M; when N ≥ 1 the
set moreover has cardinality at least 1 and contains the triggering
group (for N = 0 it is empty and does not contain the trigger — see the
counterexample). -/
theorem C1_scope_from_security_group (w : Ec2World) (g : String) (M : Nat)
    (hkeys : (w.instances.map Prod.fst).Nodup)
    (hne : instancesForSecurityGroupId w g ≠ [])
    (hM : ∀ p ∈ instancesForSecurityGroupId w g,
      (secGroupsForInstanceId w p.1).length ≤ M) :
    (∀ p ∈ instancesForSecurityGroupId w g,
      dictFind (determineEvaluationScopeFromTriggerSecGroup w g).1 p.1 =
        some (gidsOf w p.1)) ∧
    (∀ x, x ∈ (determineEvaluationScopeFromTriggerSecGroup w g).2 ↔
      ∃ p ∈ instancesForSecurityGroupId w g, x ∈ gidsOf w p.1) ∧
    (determineEvaluationScopeFromTriggerSecGroup w g).2.length ≤
      (instancesForSecurityGroupId w g).length * M ∧
    1 ≤ (determineEvaluationScopeFromTriggerSecGroup w g).2.length ∧
    GroupRef.gid g ∈ (determineEvaluationScopeFromTriggerSecGroup w g).2 := by
  have hfilterkeys : ((instancesForSecurityGroupId w g).map Prod.fst).Nodup := by
    have hsub : List.Sublist ((instancesForSecurityGroupId w g).map Prod.fst)
        (w.instances.map Prod.fst) :=
      List.Sublist.map Prod.fst (List.filter_sublist w.instances)
    exact List.Nodup.sublist hsub hkeys
  have hfst : (determineEvaluationScopeFromTriggerSecGroup w g).1 =
      (instancesForSecurityGroupId w g).map (fun p => (p.1, gidsOf w p.1)) := by
    unfold determineEvaluationScopeFromTriggerSecGroup
    rw [scopeLoop_fst_append w (instancesForSecurityGroupId w g) [] []
      (fun p _ q hq => absurd hq (List.not_mem_nil q)) hfilterkeys]
    rfl
  have hmem : ∀ x, x ∈ (determineEvaluationScopeFromTriggerSecGroup w g).2 ↔
      ∃ p ∈ instancesForSecurityGroupId w g, x ∈ gidsOf w p.1 := by
    intro x
    unfold determineEvaluationScopeFromTriggerSecGroup
    rw [scopeLoop_snd_mem]
    simp
  have hgid : GroupRef.gid g ∈ (determineEvaluationScopeFromTriggerSecGroup w g).2 := by
    obtain ⟨p, hp⟩ := List.exists_mem_of_ne_nil _ hne
    have hpmem := List.mem_filter.mp hp
    obtain ⟨r, hr, hrg⟩ := List.any_eq_true.mp hpmem.2
    have hge : r.groupId = g := of_decide_eq_true hrg
    have hsec : secGroupsForInstanceId w p.1 = p.2 :=
      secGroupsForInstanceId_eq w p hkeys hpmem.1
    refine (hmem _).mpr ⟨p, hp, ?_⟩
    unfold gidsOf
    rw [hsec]
    exact hge ▸ List.mem_map_of_mem (fun r => GroupRef.gid r.groupId) hr
  refine ⟨?_, hmem, ?_, ?_, hgid⟩
  · intro p hp
    rw [hfst]
    unfold dictFind
    have hfind : ((instancesForSecurityGroupId w g).map
        (fun p => (p.1, gidsOf w p.1))).find? (fun q => q.1 = p.1) =
        some (p.1, gidsOf w p.1) := by
      have hkeys2 : (((instancesForSecurityGroupId w g).map
          (fun p => (p.1, gidsOf w p.1))).map Prod.fst).Nodup := by
        rw [List.map_map]
        exact hfilterkeys
      exact find?_key_self _ (p.1, gidsOf w p.1) hkeys2
        (List.mem_map_of_mem _ hp)
    rw [hfind]
    rfl
  · unfold determineEvaluationScopeFromTriggerSecGroup
    have hb := scopeLoop_snd_length w M (instancesForSecurityGroupId w g) [] []
      (fun p hp => by
        unfold gidsOf
        rw [List.length_map]
        exact hM p hp)
    simpa using hb
  · cases hl : (determineEvaluationScopeFromTriggerSecGroup w g).2 with
    | nil =>
        rw [hl] at hgid
        exact absurd hgid (List.not_mem_nil _)
    | cons a t => simp

/-- C1 counterexample: for a trigger group with zero attached instances
(N = 0), the "groups to check" set is empty, so it has cardinality 0
(not ≥ 1) and does not contain the triggering group. -/
theorem C1_counterexample :
    determineEvaluationScopeFromTriggerSecGroup wEmpty "sg-1" = ([], []) ∧
    ¬ 1 ≤ (determineEvaluationScopeFromTriggerSecGroup wEmpty "sg-1").2.length ∧
    GroupRef.gid "sg-1" ∉ (determineEvaluationScopeFromTriggerSecGroup wEmpty "sg-1").2 := by
  refine ⟨rfl, by decide, by decide⟩

/-- Witness for C1 (amended) at a one-instance account. -/
theorem C1_witness :
    GroupRef.gid "sg-1" ∈ (determineEvaluationScopeFromTriggerSecGroup wOne "sg-1").2 ∧
    (determineEvaluationScopeFromTriggerSecGroup wOne "sg-1").2.length ≤
      (instancesForSecurityGroupId wOne "sg-1").length * 1 := by
  have h := C1_scope_from_security_group wOne "sg-1" 1 (by decide) (by decide) (by decide)
  exact ⟨h.2.2.2.2, h.2.2.1⟩

/-! ## Lemmas about the evaluation reporter -/

theorem joinRefsStrs_of_gids :
    ∀ (l : List GroupRef), (∀ r ∈ l, isGid r = true) →
      joinRefsStrs l = Except.ok (l.map gidName) := by
  intro l
  induction l with
  | nil => intro _; rfl
  | cons r rest ih =>
      intro h
      have hr := h r (List.mem_cons_self r rest)
      have hrest := fun q hq => h q (List.mem_cons_of_mem r hq)
      cases r with
      | gid s =>
          show (do
            let ss ← joinRefsStrs rest
            Except.ok (s :: ss)) = _
          rw [ih hrest]
          rfl
      | raw r2 => simp [isGid] at hr

theorem joinRefs_of_gids (l : List GroupRef) (h : ∀ r ∈ l, isGid r = true) :
    joinRefs l = Except.ok (String.intercalate "," (l.map gidName)) := by
  unfold joinRefs
  rw [joinRefsStrs_of_gids l h]
  rfl

theorem mkEval_of_gids (ci : ConfigItem) (p : String × List GroupRef)
    (h : ∀ r ∈ p.2, isGid r = true) :
    mkEval ci p = Except.ok (pureRecord ci p) := by
  unfold mkEval pureRecord
  by_cases hlen : p.2.length ≠ 0
  · rw [if_pos hlen, if_pos hlen, joinRefs_of_gids p.2 h]
    rfl
  · rw [if_neg hlen, if_neg hlen]

theorem buildOutput_of_gids (ci : ConfigItem) :
    ∀ (m : List (String × List GroupRef)),
      (∀ p ∈ m, ∀ r ∈ p.2, isGid r = true) →
      buildOutput ci m = Except.ok (m.map (pureRecord ci)) := by
  intro m
  induction m with
  | nil => intro _; rfl
  | cons p rest ih =>
      intro h
      show (do
        let r ← mkEval ci p
        let rs ← buildOutput ci rest
        Except.ok (r :: rs)) = _
      rw [mkEval_of_gids ci p (h p (List.mem_cons_self p rest))]
      show (do
        let rs ← buildOutput ci rest
        Except.ok (pureRecord ci p :: rs)) = _
      rw [ih (fun q hq => h q (List.mem_cons_of_mem p hq))]
      rfl

theorem recId_pureRecord (ci : ConfigItem) (p : String × List GroupRef) :
    recId (pureRecord ci p) = some p.1 := by
  unfold pureRecord recId
  by_cases hlen : p.2.length ≠ 0
  · rw [if_pos hlen]
  · rw [if_neg hlen]

theorem filter_recId_eq_nil (ci : ConfigItem) (i : String) :
    ∀ (m : List (String × List GroupRef)), (∀ p ∈ m, p.1 ≠ i) →
      (m.map (pureRecord ci)).filter (fun r => decide (recId r = some i)) = [] := by
  intro m
  induction m with
  | nil => intro _; rfl
  | cons p rest ih =>
      intro h
      rw [List.map_cons, List.filter_cons]
      have hcond : decide (recId (pureRecord ci p) = some i) = false := by
        rw [recId_pureRecord]
        exact decide_eq_false (by simp [h p (List.mem_cons_self p rest)])
      rw [hcond, if_neg Bool.false_ne_true]
      exact ih (fun q hq => h q (List.mem_cons_of_mem p hq))

theorem filter_recId_single (ci : ConfigItem) (i : String) (gs : List GroupRef) :
    ∀ (m : List (String × List GroupRef)),
      (m.map Prod.fst).Nodup → (i, gs) ∈ m →
      (m.map (pureRecord ci)).filter (fun r => decide (recId r = some i)) =
        [pureRecord ci (i, gs)] := by
  intro m
  induction m with
  | nil => intro _ h; exact absurd h (List.not_mem_nil _)
  | cons p rest ih =>
      intro hnodup hmem
      rw [List.map_cons] at hnodup
      have hn := List.nodup_cons.mp hnodup
      rw [List.map_cons, List.filter_cons]
      rcases List.mem_cons.mp hmem with heq | hmem2
      · rw [← heq]
        have hcond : decide (recId (pureRecord ci (i, gs)) = some i) = true := by
          rw [recId_pureRecord]
          exact decide_eq_true rfl
        rw [hcond, if_pos rfl]
        have hrest : (rest.map (pureRecord ci)).filter
            (fun r => decide (recId r = some i)) = [] := by
          apply filter_recId_eq_nil
          intro q hq hc
          rw [← heq] at hn
          have hqm : q.1 ∈ rest.map Prod.fst := List.mem_map_of_mem Prod.fst hq
          rw [hc] at hqm
          exact hn.1 hqm
        rw [hrest]
      · have hpne : p.1 ≠ i := by
          intro hc
          have : i ∈ rest.map Prod.fst := by
            have := List.mem_map_of_mem Prod.fst hmem2
            simpa using this
          exact hn.1 (hc ▸ this)
        have hcond : decide (recId (pureRecord ci p) = some i) = false := by
          rw [recId_pureRecord]
          exact decide_eq_false (by simp [hpne])
        rw [hcond, if_neg Bool.false_ne_true]
        exact ih hn.2 hmem2

/-! ## Claim C7 -/

/-- C7: the reporter produces one record per violation-dict entry; the
single record for instance `i` is NON_COMPLIANT with the comma-joined
violating group ids in its annotation when its violating-group list is
non-empty, COMPLIANT with the fixed annotation otherwise, and in both
cases carries as its timestamp exactly the capture time of the
triggering configuration item. -/
theorem C7_reporter (ci : ConfigItem) (m : List (String × List GroupRef))
    (i : String) (gs : List GroupRef)
    (hkeys : (m.map Prod.fst).Nodup)
    (hgid : ∀ p ∈ m, ∀ r ∈ p.2, isGid r = true)
    (hmem : (i, gs) ∈ m) :
    buildOutput ci m = Except.ok (m.map (pureRecord ci)) ∧
    (m.map (pureRecord ci)).filter (fun r => decide (recId r = some i)) =
      [pureRecord ci (i, gs)] ∧
    (gs ≠ [] → pureRecord ci (i, gs) = OutputRecord.perInstance
      { resourceType := "AWS::EC2::Instance"
        resourceId := i
        complianceType := "NON_COMPLIANT"
        annot := "Instance has non compliant groups "
          ++ String.intercalate "," (gs.map gidName)
        orderingTimestamp := ci.captureTime }) ∧
    (gs = [] → pureRecord ci (i, gs) = OutputRecord.perInstance
      { resourceType := "AWS::EC2::Instance"
        resourceId := i
        complianceType := "COMPLIANT"
        annot := "This resource is compliant with the rule."
        orderingTimestamp := ci.captureTime }) := by
  refine ⟨buildOutput_of_gids ci m hgid, filter_recId_single ci i gs m hkeys hmem,
    ?_, ?_⟩
  · intro hne
    unfold pureRecord
    rw [if_pos]
    intro hc
    exact hne (List.eq_nil_of_length_eq_zero hc)
  · intro heq
    subst heq
    rfl

/-- Witness for C7 at a concrete violation dict with one violating and
one compliant instance. -/
theorem C7_witness :
    buildOutput ciInst1 mFix = Except.ok (mFix.map (pureRecord ciInst1)) ∧
    (mFix.map (pureRecord ciInst1)).filter (fun r => decide (recId r = some "i-1")) =
      [pureRecord ciInst1 ("i-1", [GroupRef.gid "sg-1"])] := by
  have h := C7_reporter ciInst1 mFix "i-1" [GroupRef.gid "sg-1"]
    (by decide) (by decide) (by decide)
  exact ⟨h.1, h.2.1⟩

end PortChecker
